import Mathlib

/-!
Shallow embedding of src/src/function.rs: the XPath built-in function
library (values, error taxonomy, arity/type-checking helpers, the 13
built-in functions and the registration routine).

Modelling conventions:
* Rust str is modelled as List Char (UTF-8 byte positions coincide with
  character positions at the level of the operations used here, since
  find_str returns boundaries of the needle).
* f64 is modelled by F64: an exact rational for every finite double,
  plus NaN and the two infinities.  floor/ceil on finite doubles are
  exact in IEEE-754, so the rational floor/ceil is a faithful model.
* A Rust panic (out-of-bounds Vec index) is modelled by Option.none at
  the outer level of an evaluate function: evaluate returns
  Option (Except Error Value), where some r is a normal return and
  none is the panic of an unchecked index.
* The node-set is external to this file; it is modelled as a Finset Nat
  (an unordered duplicate-free collection with a size).
* The Functions registry (a HashMap in the callers) is modelled as a
  lookup function String -> Option Function with overwriting insert.
-/

/-- Mirrors enum ArgumentType in src/src/function.rs. -/
inductive ArgumentType
  | Nodeset
  | Boolean
  | Number
  | String
deriving DecidableEq, Repr

/-- Mirrors enum Error in src/src/function.rs (usize fields become Nat). -/
inductive Error
  | TooManyArguments (expected : Nat) (actual : Nat)
  | NotEnoughArguments (expected : Nat) (actual : Nat)
  | WrongType (expected : ArgumentType) (actual : ArgumentType)
deriving DecidableEq, Repr

/-- Model of f64: exact rationals for finite doubles plus NaN and infinities. -/
inductive F64
  | finite (q : ℚ)
  | nan
  | posInf
  | negInf
deriving DecidableEq, Repr

/-- Mirrors f64::floor: mathematical floor on finite values, NaN and
infinities returned unchanged (IEEE-754 behaviour). -/
def F64.floor : F64 → F64
  | .finite q => .finite (⌊q⌋ : ℤ)
  | .nan => .nan
  | .posInf => .posInf
  | .negInf => .negInf

/-- Mirrors f64::ceil: mathematical ceiling on finite values, NaN and
infinities returned unchanged (IEEE-754 behaviour). -/
def F64.ceil : F64 → F64
  | .finite q => .finite (⌈q⌉ : ℤ)
  | .nan => .nan
  | .posInf => .posInf
  | .negInf => .negInf

/-- Mirrors enum Value (the library's tagged union): Nodes carries a
node-set, String carries the character list of the owned string. -/
inductive Value
  | Nodes (nodeset : Finset Nat)
  | Boolean (b : Bool)
  | Number (n : F64)
  | String (s : List Char)
deriving DecidableEq

instance : DecidableEq (Except Error Value) := fun a b => by
  cases a <;> cases b
  case error.error x y => exact decidable_of_iff (x = y) (by simp)
  case ok.ok x y => exact decidable_of_iff (x = y) (by simp)
  all_goals exact isFalse (by simp)

/-- The tag computation inside Error::wrong_type: the ArgumentType naming
the shape of a Value. -/
def Value.tag : Value → ArgumentType
  | .Nodes _ => .Nodeset
  | .String _ => .String
  | .Number _ => .Number
  | .Boolean _ => .Boolean

/-- Mirrors Error::wrong_type in src/src/function.rs. -/
def Error.wrong_type (actual : Value) (expected : ArgumentType) : Error :=
  Error.WrongType expected actual.tag

/-- Mirrors the external EvaluationContext: exposes size() and position(). -/
structure EvaluationContext where
  size : Nat
  position : Nat
deriving DecidableEq, Repr

/-- The Function capability: evaluate(context, args).  some r is a normal
Result return; none models a Rust panic (unchecked index out of bounds). -/
def Function : Type :=
  EvaluationContext → List Value → Option (Except Error Value)

/-- Mirrors fn minimum_arg_count in src/src/function.rs. -/
def minimum_arg_count (args : List Value) (minimum : Nat) : Except Error Unit :=
  if args.length < minimum then
    .error (.NotEnoughArguments minimum args.length)
  else
    .ok ()

/-- Mirrors fn exact_arg_count in src/src/function.rs. -/
def exact_arg_count (args : List Value) (expected : Nat) : Except Error Unit :=
  if args.length < expected then
    .error (.NotEnoughArguments expected args.length)
  else if args.length > expected then
    .error (.TooManyArguments expected args.length)
  else
    .ok ()

/-- Mirrors the inner fn string_arg of string_args. -/
def string_arg (v : Value) : Except Error (List Char) :=
  match v with
  | .String s => .ok s
  | v => .error (Error.wrong_type v ArgumentType.String)

/-- Mirrors fn string_args: collect() over Results short-circuits at the
first error, so the list is consumed left to right until a non-String. -/
def string_args : List Value → Except Error (List (List Char))
  | [] => .ok []
  | v :: rest =>
    match string_arg v with
    | .error e => .error e
    | .ok s =>
      match string_args rest with
      | .error e => .error e
      | .ok ss => .ok (s :: ss)

/-- Mirrors fn one_number: reads args[0] with no arity check of its own;
none models the panic of the unchecked index on an empty vector. -/
def one_number (args : List Value) : Option (Except Error F64) :=
  match args with
  | [] => none
  | a :: _ =>
    match a with
    | .Number v => some (.ok v)
    | a => some (.error (Error.wrong_type a ArgumentType.Number))

/-- Mirrors str::find (find_str): byte index of the first, leftmost
occurrence of the needle; an empty needle matches at position 0. -/
def findSub (needle : List Char) : List Char → Option Nat
  | [] => if needle.isPrefixOf ([] : List Char) then some 0 else none
  | c :: rest =>
    if needle.isPrefixOf (c :: rest) then some 0
    else (findSub needle rest).map (· + 1)

/-- Mirrors impl Function for Last. -/
def Last.evaluate (context : EvaluationContext) (args : List Value) :
    Option (Except Error Value) :=
  match exact_arg_count args 0 with
  | .error e => some (.error e)
  | .ok _ => some (.ok (Value.Number (.finite (context.size : ℚ))))

/-- Mirrors impl Function for Position. -/
def Position.evaluate (context : EvaluationContext) (args : List Value) :
    Option (Except Error Value) :=
  match exact_arg_count args 0 with
  | .error e => some (.error e)
  | .ok _ => some (.ok (Value.Number (.finite (context.position : ℚ))))

/-- Mirrors impl Function for Count: &args[0] is reached only after the
exact-arity check, so the index is modelled with getElem?. -/
def Count.evaluate (_context : EvaluationContext) (args : List Value) :
    Option (Except Error Value) :=
  match exact_arg_count args 1 with
  | .error e => some (.error e)
  | .ok _ =>
    match args[0]? with
    | none => none
    | some arg =>
      match arg with
      | .Nodes nodeset => some (.ok (Value.Number (.finite (nodeset.card : ℚ))))
      | arg => some (.error (Error.wrong_type arg ArgumentType.Nodeset))

/-- Mirrors impl Function for Concat. -/
def Concat.evaluate (_context : EvaluationContext) (args : List Value) :
    Option (Except Error Value) :=
  match minimum_arg_count args 2 with
  | .error e => some (.error e)
  | .ok _ =>
    match string_args args with
    | .error e => some (.error e)
    | .ok ss => some (.ok (Value.String ss.flatten))

/-- Mirrors impl Function for StartsWith: args[0].starts_with(args[1]). -/
def StartsWith.evaluate (_context : EvaluationContext) (args : List Value) :
    Option (Except Error Value) :=
  match exact_arg_count args 2 with
  | .error e => some (.error e)
  | .ok _ =>
    match string_args args with
    | .error e => some (.error e)
    | .ok ss =>
      match ss with
      | a :: b :: _ => some (.ok (Value.Boolean (b.isPrefixOf a)))
      | _ => none

/-- Mirrors impl Function for Contains: args[0].contains(args[1]),
where str::contains is substring search (find is some). -/
def Contains.evaluate (_context : EvaluationContext) (args : List Value) :
    Option (Except Error Value) :=
  match exact_arg_count args 2 with
  | .error e => some (.error e)
  | .ok _ =>
    match string_args args with
    | .error e => some (.error e)
    | .ok ss =>
      match ss with
      | a :: b :: _ => some (.ok (Value.Boolean (findSub b a).isSome))
      | _ => none

/-- Mirrors impl Function for SubstringBefore: slice of the haystack up to
the position of the first occurrence of the needle, empty when absent. -/
def SubstringBefore.evaluate (_context : EvaluationContext) (args : List Value) :
    Option (Except Error Value) :=
  match exact_arg_count args 2 with
  | .error e => some (.error e)
  | .ok _ =>
    match string_args args with
    | .error e => some (.error e)
    | .ok ss =>
      match ss with
      | haystack :: needle :: _ =>
        some (.ok (Value.String
          (match findSub needle haystack with
           | some pos => haystack.take pos
           | none => [])))
      | _ => none

/-- Mirrors impl Function for SubstringAfter: slice of the haystack from
the end of the first occurrence of the needle, empty when absent. -/
def SubstringAfter.evaluate (_context : EvaluationContext) (args : List Value) :
    Option (Except Error Value) :=
  match exact_arg_count args 2 with
  | .error e => some (.error e)
  | .ok _ =>
    match string_args args with
    | .error e => some (.error e)
    | .ok ss =>
      match ss with
      | haystack :: needle :: _ =>
        some (.ok (Value.String
          (match findSub needle haystack with
           | some pos => haystack.drop (pos + needle.length)
           | none => [])))
      | _ => none

/-- Mirrors impl Function for Not. -/
def Not.evaluate (_context : EvaluationContext) (args : List Value) :
    Option (Except Error Value) :=
  match exact_arg_count args 1 with
  | .error e => some (.error e)
  | .ok _ =>
    match args[0]? with
    | none => none
    | some arg =>
      match arg with
      | .Boolean v => some (.ok (Value.Boolean (!v)))
      | arg => some (.error (Error.wrong_type arg ArgumentType.Boolean))

/-- Mirrors impl Function for True. -/
def True.evaluate (_context : EvaluationContext) (args : List Value) :
    Option (Except Error Value) :=
  match exact_arg_count args 0 with
  | .error e => some (.error e)
  | .ok _ => some (.ok (Value.Boolean true))

/-- Mirrors impl Function for False. -/
def False.evaluate (_context : EvaluationContext) (args : List Value) :
    Option (Except Error Value) :=
  match exact_arg_count args 0 with
  | .error e => some (.error e)
  | .ok _ => some (.ok (Value.Boolean false))

/-- Mirrors impl Function for Floor: exact_arg_count, one_number, f64::floor. -/
def Floor.evaluate (_context : EvaluationContext) (args : List Value) :
    Option (Except Error Value) :=
  match exact_arg_count args 1 with
  | .error e => some (.error e)
  | .ok _ =>
    match one_number args with
    | none => none
    | some (.error e) => some (.error e)
    | some (.ok v) => some (.ok (Value.Number v.floor))

/-- Mirrors impl Function for Ceiling: exact_arg_count, one_number, f64::ceil. -/
def Ceiling.evaluate (_context : EvaluationContext) (args : List Value) :
    Option (Except Error Value) :=
  match exact_arg_count args 1 with
  | .error e => some (.error e)
  | .ok _ =>
    match one_number args with
    | none => none
    | some (.error e) => some (.error e)
    | some (.ok v) => some (.ok (Value.Number v.ceil))

/-- The Functions registry: a name-to-Function mapping. -/
def Functions : Type := String → Option Function

/-- HashMap::insert semantics: overwrite the binding for the key. -/
def Functions.insert (m : Functions) (k : String) (v : Function) : Functions :=
  fun k2 => if k2 = k then some v else m k2

/-- Mirrors fn register_core_functions in src/src/function.rs. -/
def register_core_functions (functions : Functions) : Functions :=
  ((((((((((((functions.insert "last" Last.evaluate).insert
    "position" Position.evaluate).insert
    "count" Count.evaluate).insert
    "concat" Concat.evaluate).insert
    "starts-with" StartsWith.evaluate).insert
    "contains" Contains.evaluate).insert
    "substring-before" SubstringBefore.evaluate).insert
    "substring-after" SubstringAfter.evaluate).insert
    "not" Not.evaluate).insert
    "true" True.evaluate).insert
    "false" False.evaluate).insert
    "floor" Floor.evaluate).insert
    "ceiling" Ceiling.evaluate

/-! Helper lemmas about the validation primitives. -/

theorem exact_arg_count_of_lt {args : List Value} {n : Nat} (h : args.length < n) :
    exact_arg_count args n = .error (.NotEnoughArguments n args.length) := by
  simp [exact_arg_count, h]

theorem exact_arg_count_of_gt {args : List Value} {n : Nat} (h : n < args.length) :
    exact_arg_count args n = .error (.TooManyArguments n args.length) := by
  have h2 : ¬ args.length < n := by omega
  simp [exact_arg_count, h, h2]

theorem exact_arg_count_of_eq {args : List Value} {n : Nat} (h : args.length = n) :
    exact_arg_count args n = .ok () := by
  simp [exact_arg_count, h]

theorem minimum_arg_count_of_lt {args : List Value} {n : Nat} (h : args.length < n) :
    minimum_arg_count args n = .error (.NotEnoughArguments n args.length) := by
  simp [minimum_arg_count, h]

theorem minimum_arg_count_of_ge {args : List Value} {n : Nat} (h : n ≤ args.length) :
    minimum_arg_count args n = .ok () := by
  have h2 : ¬ args.length < n := by omega
  simp [minimum_arg_count, h2]

theorem string_arg_of_tag_ne {v : Value} (h : v.tag ≠ ArgumentType.String) :
    string_arg v = .error (.WrongType ArgumentType.String v.tag) := by
  cases v with
  | String s => exact absurd rfl h
  | Nodes ns => rfl
  | Boolean b => rfl
  | Number n => rfl

theorem string_args_map (ss : List (List Char)) :
    string_args (ss.map Value.String) = .ok ss := by
  induction ss with
  | nil => rfl
  | cons s rest ih => simp [string_args, string_arg, ih]

theorem string_args_ok {args : List Value} {ss : List (List Char)}
    (h : string_args args = .ok ss) : args = ss.map Value.String := by
  induction args generalizing ss with
  | nil =>
    simp [string_args] at h
    simp [← h]
  | cons v rest ih =>
    cases v with
    | String s =>
      simp only [string_args, string_arg] at h
      cases hr : string_args rest with
      | error e => rw [hr] at h; exact absurd h (by simp)
      | ok tail =>
        rw [hr] at h
        simp only [Except.ok.injEq] at h
        subst h
        simp [ih hr]
    | Nodes ns => simp [string_args, string_arg] at h
    | Boolean b => simp [string_args, string_arg] at h
    | Number n => simp [string_args, string_arg] at h

theorem string_args_first_err (ss : List (List Char)) {v : Value} (rest : List Value)
    (h : v.tag ≠ ArgumentType.String) :
    string_args (ss.map Value.String ++ v :: rest) =
      .error (.WrongType ArgumentType.String v.tag) := by
  induction ss with
  | nil => simp [string_args, string_arg_of_tag_ne h]
  | cons s tail ih => simp [string_args, string_arg, ih]

/-! Helper lemmas about findSub, the model of str::find. -/

theorem findSub_nil (needle : List Char) :
    findSub needle [] = if needle.isPrefixOf ([] : List Char) then some 0 else none := rfl

theorem findSub_cons (needle : List Char) (c : Char) (rest : List Char) :
    findSub needle (c :: rest) =
      if needle.isPrefixOf (c :: rest) then some 0
      else (findSub needle rest).map (· + 1) := rfl

theorem findSub_some_isPrefixOf {needle hay : List Char} {i : Nat}
    (h : findSub needle hay = some i) :
    needle.isPrefixOf (hay.drop i) = true := by
  induction hay generalizing i with
  | nil =>
    rw [findSub_nil] at h
    by_cases hp : needle.isPrefixOf ([] : List Char) = true
    · rw [if_pos hp] at h
      cases h
      exact hp
    · rw [if_neg hp] at h
      cases h
  | cons c rest ih =>
    rw [findSub_cons] at h
    by_cases hp : needle.isPrefixOf (c :: rest) = true
    · rw [if_pos hp] at h
      cases h
      exact hp
    · rw [if_neg hp, Option.map_eq_some'] at h
      obtain ⟨j, hj, rfl⟩ := h
      rw [List.drop_succ_cons]
      exact ih hj

theorem findSub_some_min {needle hay : List Char} {i : Nat}
    (h : findSub needle hay = some i) :
    ∀ j, j < i → needle.isPrefixOf (hay.drop j) = false := by
  induction hay generalizing i with
  | nil =>
    rw [findSub_nil] at h
    by_cases hp : needle.isPrefixOf ([] : List Char) = true
    · rw [if_pos hp] at h
      cases h
      intro j hj
      omega
    · rw [if_neg hp] at h
      cases h
  | cons c rest ih =>
    rw [findSub_cons] at h
    by_cases hp : needle.isPrefixOf (c :: rest) = true
    · rw [if_pos hp] at h
      cases h
      intro j hj
      omega
    · rw [if_neg hp, Option.map_eq_some'] at h
      obtain ⟨k, hk, rfl⟩ := h
      intro j hj
      cases j with
      | zero =>
        rw [List.drop_zero]
        exact Bool.eq_false_iff.mpr hp
      | succ j2 =>
        rw [List.drop_succ_cons]
        exact ih hk j2 (by omega)

theorem findSub_none {needle hay : List Char}
    (h : findSub needle hay = none) :
    ∀ i, needle.isPrefixOf (hay.drop i) = false := by
  induction hay with
  | nil =>
    rw [findSub_nil] at h
    by_cases hp : needle.isPrefixOf ([] : List Char) = true
    · rw [if_pos hp] at h
      cases h
    · intro i
      rw [List.drop_nil]
      exact Bool.eq_false_iff.mpr hp
  | cons c rest ih =>
    rw [findSub_cons] at h
    by_cases hp : needle.isPrefixOf (c :: rest) = true
    · rw [if_pos hp] at h
      cases h
    · rw [if_neg hp, Option.map_eq_none'] at h
      intro i
      cases i with
      | zero =>
        rw [List.drop_zero]
        exact Bool.eq_false_iff.mpr hp
      | succ j =>
        rw [List.drop_succ_cons]
        exact ih h j

theorem findSub_complete {needle hay : List Char} {i : Nat}
    (hp : needle.isPrefixOf (hay.drop i) = true)
    (hmin : ∀ j, j < i → needle.isPrefixOf (hay.drop j) = false) :
    findSub needle hay = some i := by
  induction hay generalizing i with
  | nil =>
    rw [List.drop_nil] at hp
    have hi : i = 0 := by
      by_contra hne
      have h0 := hmin 0 (by omega)
      rw [List.drop_nil] at h0
      rw [hp] at h0
      cases h0
    subst hi
    rw [findSub_nil, if_pos hp]
  | cons c rest ih =>
    by_cases hc : needle.isPrefixOf (c :: rest) = true
    · have hi : i = 0 := by
        by_contra hne
        have h0 := hmin 0 (by omega)
        rw [List.drop_zero] at h0
        rw [hc] at h0
        cases h0
      subst hi
      rw [findSub_cons, if_pos hc]
    · have hi : i ≠ 0 := by
        intro h0
        subst h0
        rw [List.drop_zero] at hp
        exact hc hp
      obtain ⟨i2, rfl⟩ : ∃ i2, i = i2 + 1 := ⟨i - 1, by omega⟩
      have hrec : findSub needle rest = some i2 := by
        apply ih
        · rw [List.drop_succ_cons] at hp
          exact hp
        · intro j hj
          have := hmin (j + 1) (by omega)
          rw [List.drop_succ_cons] at this
          exact this
      rw [findSub_cons, if_neg hc, hrec]
      rfl

theorem findSub_nil_needle (hay : List Char) : findSub ([] : List Char) hay = some 0 := by
  cases hay with
  | nil => rw [findSub_nil, if_pos (by rfl)]
  | cons c rest => rw [findSub_cons, if_pos (by rfl)]

/-! Derived facts used by several claims. -/

theorem exact_arity_err {args : List Value} {n : Nat} (h : args.length ≠ n) :
    ∃ a b, exact_arg_count args n = Except.error (Error.NotEnoughArguments a b) ∨
           exact_arg_count args n = Except.error (Error.TooManyArguments a b) := by
  rcases Nat.lt_or_ge args.length n with hlt | hge
  · exact ⟨n, args.length, Or.inl (exact_arg_count_of_lt hlt)⟩
  · have hgt : n < args.length := by omega
    exact ⟨n, args.length, Or.inr (exact_arg_count_of_gt hgt)⟩

theorem length_of_exact_ok {args : List Value} {n : Nat}
    (h : exact_arg_count args n = .ok ()) : args.length = n := by
  by_contra hne
  obtain ⟨a, b, hab | hab⟩ := exact_arity_err hne <;> rw [hab] at h <;> simp at h

theorem string_args_length {args : List Value} {ss : List (List Char)}
    (h : string_args args = .ok ss) : ss.length = args.length := by
  rw [string_args_ok h]
  simp

/-- An evaluate outcome that is an arity diagnostic (and in particular is
neither a success, a panic, nor a WrongType error). -/
def isArityError (r : Option (Except Error Value)) : Prop :=
  ∃ a b, r = some (.error (.NotEnoughArguments a b)) ∨
         r = some (.error (.TooManyArguments a b))

/-- C1: for every built-in function, arity is checked before any argument
type is inspected: whenever the argument count is wrong (below the minimum
for concat, different from the exact arity for the other twelve), evaluate
returns NotEnoughArguments or TooManyArguments — never WrongType —
regardless of the argument values' tags. -/
theorem arity_checked_before_argument_types (ctx : EvaluationContext) (args : List Value) :
    (args.length ≠ 0 → isArityError (Last.evaluate ctx args)) ∧
    (args.length ≠ 0 → isArityError (Position.evaluate ctx args)) ∧
    (args.length ≠ 1 → isArityError (Count.evaluate ctx args)) ∧
    (args.length < 2 → isArityError (Concat.evaluate ctx args)) ∧
    (args.length ≠ 2 → isArityError (StartsWith.evaluate ctx args)) ∧
    (args.length ≠ 2 → isArityError (Contains.evaluate ctx args)) ∧
    (args.length ≠ 2 → isArityError (SubstringBefore.evaluate ctx args)) ∧
    (args.length ≠ 2 → isArityError (SubstringAfter.evaluate ctx args)) ∧
    (args.length ≠ 1 → isArityError (Not.evaluate ctx args)) ∧
    (args.length ≠ 0 → isArityError (True.evaluate ctx args)) ∧
    (args.length ≠ 0 → isArityError (False.evaluate ctx args)) ∧
    (args.length ≠ 1 → isArityError (Floor.evaluate ctx args)) ∧
    (args.length ≠ 1 → isArityError (Ceiling.evaluate ctx args)) := by
  refine ⟨?_, ?_, ?_, ?_, ?_, ?_, ?_, ?_, ?_, ?_, ?_, ?_, ?_⟩
  · intro h
    obtain ⟨a, b, hab | hab⟩ := exact_arity_err h
    · exact ⟨a, b, Or.inl (by simp only [Last.evaluate, hab])⟩
    · exact ⟨a, b, Or.inr (by simp only [Last.evaluate, hab])⟩
  · intro h
    obtain ⟨a, b, hab | hab⟩ := exact_arity_err h
    · exact ⟨a, b, Or.inl (by simp only [Position.evaluate, hab])⟩
    · exact ⟨a, b, Or.inr (by simp only [Position.evaluate, hab])⟩
  · intro h
    obtain ⟨a, b, hab | hab⟩ := exact_arity_err h
    · exact ⟨a, b, Or.inl (by simp only [Count.evaluate, hab])⟩
    · exact ⟨a, b, Or.inr (by simp only [Count.evaluate, hab])⟩
  · intro h
    exact ⟨2, args.length, Or.inl (by simp only [Concat.evaluate, minimum_arg_count_of_lt h])⟩
  · intro h
    obtain ⟨a, b, hab | hab⟩ := exact_arity_err h
    · exact ⟨a, b, Or.inl (by simp only [StartsWith.evaluate, hab])⟩
    · exact ⟨a, b, Or.inr (by simp only [StartsWith.evaluate, hab])⟩
  · intro h
    obtain ⟨a, b, hab | hab⟩ := exact_arity_err h
    · exact ⟨a, b, Or.inl (by simp only [Contains.evaluate, hab])⟩
    · exact ⟨a, b, Or.inr (by simp only [Contains.evaluate, hab])⟩
  · intro h
    obtain ⟨a, b, hab | hab⟩ := exact_arity_err h
    · exact ⟨a, b, Or.inl (by simp only [SubstringBefore.evaluate, hab])⟩
    · exact ⟨a, b, Or.inr (by simp only [SubstringBefore.evaluate, hab])⟩
  · intro h
    obtain ⟨a, b, hab | hab⟩ := exact_arity_err h
    · exact ⟨a, b, Or.inl (by simp only [SubstringAfter.evaluate, hab])⟩
    · exact ⟨a, b, Or.inr (by simp only [SubstringAfter.evaluate, hab])⟩
  · intro h
    obtain ⟨a, b, hab | hab⟩ := exact_arity_err h
    · exact ⟨a, b, Or.inl (by simp only [Not.evaluate, hab])⟩
    · exact ⟨a, b, Or.inr (by simp only [Not.evaluate, hab])⟩
  · intro h
    obtain ⟨a, b, hab | hab⟩ := exact_arity_err h
    · exact ⟨a, b, Or.inl (by simp only [True.evaluate, hab])⟩
    · exact ⟨a, b, Or.inr (by simp only [True.evaluate, hab])⟩
  · intro h
    obtain ⟨a, b, hab | hab⟩ := exact_arity_err h
    · exact ⟨a, b, Or.inl (by simp only [False.evaluate, hab])⟩
    · exact ⟨a, b, Or.inr (by simp only [False.evaluate, hab])⟩
  · intro h
    obtain ⟨a, b, hab | hab⟩ := exact_arity_err h
    · exact ⟨a, b, Or.inl (by simp only [Floor.evaluate, hab])⟩
    · exact ⟨a, b, Or.inr (by simp only [Floor.evaluate, hab])⟩
  · intro h
    obtain ⟨a, b, hab | hab⟩ := exact_arity_err h
    · exact ⟨a, b, Or.inl (by simp only [Ceiling.evaluate, hab])⟩
    · exact ⟨a, b, Or.inr (by simp only [Ceiling.evaluate, hab])⟩

theorem arity_checked_before_argument_types_witness :
    isArityError (Concat.evaluate ⟨1, 1⟩ [Value.Boolean true]) ∧
    isArityError (Floor.evaluate ⟨1, 1⟩ [Value.String ['x'], Value.String ['y']]) := by
  constructor
  · exact (arity_checked_before_argument_types ⟨1, 1⟩ [Value.Boolean true]).2.2.2.1 (by decide)
  · exact (arity_checked_before_argument_types ⟨1, 1⟩
      [Value.String ['x'], Value.String ['y']]).2.2.2.2.2.2.2.2.2.2.2.1 (by decide)

/-- C4: for every function of exact arity n, a call with n−1 arguments
returns NotEnoughArguments{expected: n, actual: n−1} and a call with n+1
arguments returns TooManyArguments{expected: n, actual: n+1}, the fields
carrying exactly those counts.  (For the arity-0 functions the n−1 case is
vacuous: no call has −1 arguments.) -/
theorem exact_arity_error_counts (ctx : EvaluationContext) (args : List Value) :
    ((args.length + 1 = 0 → Last.evaluate ctx args = some (.error (.NotEnoughArguments 0 (0 - 1)))) ∧
     (args.length = 0 + 1 → Last.evaluate ctx args = some (.error (.TooManyArguments 0 (0 + 1))))) ∧
    ((args.length + 1 = 0 → Position.evaluate ctx args = some (.error (.NotEnoughArguments 0 (0 - 1)))) ∧
     (args.length = 0 + 1 → Position.evaluate ctx args = some (.error (.TooManyArguments 0 (0 + 1))))) ∧
    ((args.length + 1 = 1 → Count.evaluate ctx args = some (.error (.NotEnoughArguments 1 (1 - 1)))) ∧
     (args.length = 1 + 1 → Count.evaluate ctx args = some (.error (.TooManyArguments 1 (1 + 1))))) ∧
    ((args.length + 1 = 2 → StartsWith.evaluate ctx args = some (.error (.NotEnoughArguments 2 (2 - 1)))) ∧
     (args.length = 2 + 1 → StartsWith.evaluate ctx args = some (.error (.TooManyArguments 2 (2 + 1))))) ∧
    ((args.length + 1 = 2 → Contains.evaluate ctx args = some (.error (.NotEnoughArguments 2 (2 - 1)))) ∧
     (args.length = 2 + 1 → Contains.evaluate ctx args = some (.error (.TooManyArguments 2 (2 + 1))))) ∧
    ((args.length + 1 = 2 → SubstringBefore.evaluate ctx args = some (.error (.NotEnoughArguments 2 (2 - 1)))) ∧
     (args.length = 2 + 1 → SubstringBefore.evaluate ctx args = some (.error (.TooManyArguments 2 (2 + 1))))) ∧
    ((args.length + 1 = 2 → SubstringAfter.evaluate ctx args = some (.error (.NotEnoughArguments 2 (2 - 1)))) ∧
     (args.length = 2 + 1 → SubstringAfter.evaluate ctx args = some (.error (.TooManyArguments 2 (2 + 1))))) ∧
    ((args.length + 1 = 1 → Not.evaluate ctx args = some (.error (.NotEnoughArguments 1 (1 - 1)))) ∧
     (args.length = 1 + 1 → Not.evaluate ctx args = some (.error (.TooManyArguments 1 (1 + 1))))) ∧
    ((args.length + 1 = 0 → True.evaluate ctx args = some (.error (.NotEnoughArguments 0 (0 - 1)))) ∧
     (args.length = 0 + 1 → True.evaluate ctx args = some (.error (.TooManyArguments 0 (0 + 1))))) ∧
    ((args.length + 1 = 0 → False.evaluate ctx args = some (.error (.NotEnoughArguments 0 (0 - 1)))) ∧
     (args.length = 0 + 1 → False.evaluate ctx args = some (.error (.TooManyArguments 0 (0 + 1))))) ∧
    ((args.length + 1 = 1 → Floor.evaluate ctx args = some (.error (.NotEnoughArguments 1 (1 - 1)))) ∧
     (args.length = 1 + 1 → Floor.evaluate ctx args = some (.error (.TooManyArguments 1 (1 + 1))))) ∧
    ((args.length + 1 = 1 → Ceiling.evaluate ctx args = some (.error (.NotEnoughArguments 1 (1 - 1)))) ∧
     (args.length = 1 + 1 → Ceiling.evaluate ctx args = some (.error (.TooManyArguments 1 (1 + 1))))) := by
  refine ⟨⟨?_, ?_⟩, ⟨?_, ?_⟩, ⟨?_, ?_⟩, ⟨?_, ?_⟩, ⟨?_, ?_⟩, ⟨?_, ?_⟩, ⟨?_, ?_⟩, ⟨?_, ?_⟩,
    ⟨?_, ?_⟩, ⟨?_, ?_⟩, ⟨?_, ?_⟩, ⟨?_, ?_⟩⟩ <;> intro h
  · omega
  · have he := @exact_arg_count_of_gt args 0 (by omega)
    rw [h] at he
    simp only [Last.evaluate, he]
  · omega
  · have he := @exact_arg_count_of_gt args 0 (by omega)
    rw [h] at he
    simp only [Position.evaluate, he]
  · have he := @exact_arg_count_of_lt args 1 (by omega)
    have hl : args.length = 0 := by omega
    rw [hl] at he
    simp only [Count.evaluate, he]
  · have he := @exact_arg_count_of_gt args 1 (by omega)
    rw [h] at he
    simp only [Count.evaluate, he]
  · have he := @exact_arg_count_of_lt args 2 (by omega)
    have hl : args.length = 1 := by omega
    rw [hl] at he
    simp only [StartsWith.evaluate, he]
  · have he := @exact_arg_count_of_gt args 2 (by omega)
    rw [h] at he
    simp only [StartsWith.evaluate, he]
  · have he := @exact_arg_count_of_lt args 2 (by omega)
    have hl : args.length = 1 := by omega
    rw [hl] at he
    simp only [Contains.evaluate, he]
  · have he := @exact_arg_count_of_gt args 2 (by omega)
    rw [h] at he
    simp only [Contains.evaluate, he]
  · have he := @exact_arg_count_of_lt args 2 (by omega)
    have hl : args.length = 1 := by omega
    rw [hl] at he
    simp only [SubstringBefore.evaluate, he]
  · have he := @exact_arg_count_of_gt args 2 (by omega)
    rw [h] at he
    simp only [SubstringBefore.evaluate, he]
  · have he := @exact_arg_count_of_lt args 2 (by omega)
    have hl : args.length = 1 := by omega
    rw [hl] at he
    simp only [SubstringAfter.evaluate, he]
  · have he := @exact_arg_count_of_gt args 2 (by omega)
    rw [h] at he
    simp only [SubstringAfter.evaluate, he]
  · have he := @exact_arg_count_of_lt args 1 (by omega)
    have hl : args.length = 0 := by omega
    rw [hl] at he
    simp only [Not.evaluate, he]
  · have he := @exact_arg_count_of_gt args 1 (by omega)
    rw [h] at he
    simp only [Not.evaluate, he]
  · omega
  · have he := @exact_arg_count_of_gt args 0 (by omega)
    rw [h] at he
    simp only [True.evaluate, he]
  · omega
  · have he := @exact_arg_count_of_gt args 0 (by omega)
    rw [h] at he
    simp only [False.evaluate, he]
  · have he := @exact_arg_count_of_lt args 1 (by omega)
    have hl : args.length = 0 := by omega
    rw [hl] at he
    simp only [Floor.evaluate, he]
  · have he := @exact_arg_count_of_gt args 1 (by omega)
    rw [h] at he
    simp only [Floor.evaluate, he]
  · have he := @exact_arg_count_of_lt args 1 (by omega)
    have hl : args.length = 0 := by omega
    rw [hl] at he
    simp only [Ceiling.evaluate, he]
  · have he := @exact_arg_count_of_gt args 1 (by omega)
    rw [h] at he
    simp only [Ceiling.evaluate, he]

theorem exact_arity_error_counts_witness :
    Floor.evaluate ⟨1, 1⟩ [] = some (.error (.NotEnoughArguments 1 0)) ∧
    Floor.evaluate ⟨1, 1⟩ [Value.Boolean true, Value.Boolean false] =
      some (.error (.TooManyArguments 1 2)) := by
  constructor
  · exact (exact_arity_error_counts ⟨1, 1⟩ []).2.2.2.2.2.2.2.2.2.2.1.1 (by decide)
  · exact (exact_arity_error_counts ⟨1, 1⟩
      [Value.Boolean true, Value.Boolean false]).2.2.2.2.2.2.2.2.2.2.1.2 (by decide)

/-- C2: substring-before returns the portion of the haystack strictly
before the first (leftmost) occurrence of the needle and substring-after
the portion strictly after it; when the needle does not occur both return
the empty string; an empty needle matches at position 0, so before is the
empty string and after is the full haystack.  An occurrence at i is
"needle is a prefix of the haystack dropped by i", and first means no
occurrence at any j < i. -/
theorem substring_before_after_first_occurrence (ctx : EvaluationContext)
    (hay needle : List Char) :
    (∀ i : Nat, needle.isPrefixOf (hay.drop i) = true →
      (∀ j, j < i → needle.isPrefixOf (hay.drop j) = false) →
      SubstringBefore.evaluate ctx [Value.String hay, Value.String needle] =
        some (.ok (Value.String (hay.take i))) ∧
      SubstringAfter.evaluate ctx [Value.String hay, Value.String needle] =
        some (.ok (Value.String (hay.drop (i + needle.length))))) ∧
    ((∀ i : Nat, needle.isPrefixOf (hay.drop i) = false) →
      SubstringBefore.evaluate ctx [Value.String hay, Value.String needle] =
        some (.ok (Value.String [])) ∧
      SubstringAfter.evaluate ctx [Value.String hay, Value.String needle] =
        some (.ok (Value.String []))) ∧
    (needle = [] →
      SubstringBefore.evaluate ctx [Value.String hay, Value.String needle] =
        some (.ok (Value.String [])) ∧
      SubstringAfter.evaluate ctx [Value.String hay, Value.String needle] =
        some (.ok (Value.String hay))) := by
  have harity : exact_arg_count [Value.String hay, Value.String needle] 2 = .ok () :=
    exact_arg_count_of_eq rfl
  have hsa : string_args [Value.String hay, Value.String needle] = .ok [hay, needle] :=
    string_args_map [hay, needle]
  refine ⟨?_, ?_, ?_⟩
  · intro i hp hmin
    have hf : findSub needle hay = some i := findSub_complete hp hmin
    constructor
    · simp only [SubstringBefore.evaluate, harity, hsa, hf]
    · simp only [SubstringAfter.evaluate, harity, hsa, hf]
  · intro hall
    have hf : findSub needle hay = none := by
      cases hfs : findSub needle hay with
      | none => rfl
      | some j =>
        have := findSub_some_isPrefixOf hfs
        rw [hall j] at this
        cases this
    constructor
    · simp only [SubstringBefore.evaluate, harity, hsa, hf]
    · simp only [SubstringAfter.evaluate, harity, hsa, hf]
  · intro hn
    subst hn
    have hf : findSub ([] : List Char) hay = some 0 := findSub_nil_needle hay
    constructor
    · simp only [SubstringBefore.evaluate, harity, hsa, hf, List.take_zero]
    · simp only [SubstringAfter.evaluate, harity, hsa, hf, List.length_nil,
        Nat.add_zero, List.drop_zero]

theorem substring_before_after_first_occurrence_witness :
    SubstringBefore.evaluate ⟨1, 1⟩
        [Value.String "1999/04/01".toList, Value.String "/".toList] =
      some (.ok (Value.String ("1999/04/01".toList.take 4))) ∧
    SubstringAfter.evaluate ⟨1, 1⟩
        [Value.String "1999/04/01".toList, Value.String "/".toList] =
      some (.ok (Value.String ("1999/04/01".toList.drop (4 + "/".toList.length)))) :=
  (substring_before_after_first_occurrence ⟨1, 1⟩
    "1999/04/01".toList "/".toList).1 4 (by decide) (by decide)

/-- C3: concat with fewer than 2 arguments returns
NotEnoughArguments{expected: 2, actual: count}; with 2 or more String
arguments it returns the String concatenating all arguments in order with
no separator (List.flatten of the payload lists). -/
theorem concat_spec (ctx : EvaluationContext) (args : List Value)
    (ss : List (List Char)) :
    (args.length < 2 →
      Concat.evaluate ctx args = some (.error (.NotEnoughArguments 2 args.length))) ∧
    (2 ≤ ss.length →
      Concat.evaluate ctx (List.map Value.String ss) =
        some (.ok (Value.String ss.flatten))) := by
  constructor
  · intro h
    simp only [Concat.evaluate, minimum_arg_count_of_lt h]
  · intro h
    have hge : 2 ≤ (List.map Value.String ss).length := by
      rw [List.length_map]
      exact h
    simp only [Concat.evaluate, minimum_arg_count_of_ge hge, string_args_map]

theorem concat_spec_witness :
    Concat.evaluate ⟨1, 1⟩ [Value.Boolean true] =
      some (.error (.NotEnoughArguments 2 1)) ∧
    Concat.evaluate ⟨1, 1⟩
        (List.map Value.String ["a".toList, "b".toList, "c".toList]) =
      some (.ok (Value.String (["a".toList, "b".toList, "c".toList].flatten))) :=
  ⟨(concat_spec ⟨1, 1⟩ [Value.Boolean true] []).1 (by decide),
   (concat_spec ⟨1, 1⟩ [] ["a".toList, "b".toList, "c".toList]).2 (by decide)⟩

/-- C5: string_args succeeds exactly when every element is a String,
returning the payloads in order (args is the String-tagging of the result
list); on a list whose first non-String element is v (an all-String
prefix, then v, then anything) it fails with WrongType naming v's tag. -/
theorem string_args_spec (args : List Value) (ss : List (List Char))
    (v : Value) (rest : List Value) :
    (string_args args = .ok ss ↔ args = List.map Value.String ss) ∧
    (v.tag ≠ ArgumentType.String →
      string_args (List.map Value.String ss ++ v :: rest) =
        .error (.WrongType ArgumentType.String v.tag)) := by
  constructor
  · constructor
    · exact string_args_ok
    · intro h
      rw [h]
      exact string_args_map ss
  · intro h
    exact string_args_first_err ss rest h

theorem string_args_spec_witness :
    string_args (List.map Value.String ["a".toList] ++
      Value.Boolean true :: [Value.String "b".toList, Value.Number F64.nan]) =
      .error (.WrongType ArgumentType.String ArgumentType.Boolean) :=
  (string_args_spec [] ["a".toList] (Value.Boolean true)
    [Value.String "b".toList, Value.Number F64.nan]).2 (by decide)

/-- C6: count with one Nodeset argument returns Number of the node-set's
size; with a single non-Nodeset argument it returns
WrongType{expected: Nodeset, actual: the argument's tag}. -/
theorem count_spec (ctx : EvaluationContext) (ns : Finset Nat) (v : Value) :
    Count.evaluate ctx [Value.Nodes ns] =
      some (.ok (Value.Number (.finite (ns.card : ℚ)))) ∧
    (v.tag ≠ ArgumentType.Nodeset →
      Count.evaluate ctx [v] = some (.error (.WrongType ArgumentType.Nodeset v.tag))) := by
  constructor
  · simp [Count.evaluate, exact_arg_count]
  · intro h
    cases v with
    | Nodes ns2 => exact absurd rfl h
    | Boolean b => simp [Count.evaluate, exact_arg_count, Error.wrong_type, Value.tag]
    | Number n => simp [Count.evaluate, exact_arg_count, Error.wrong_type, Value.tag]
    | String s => simp [Count.evaluate, exact_arg_count, Error.wrong_type, Value.tag]

theorem count_spec_witness :
    Count.evaluate ⟨1, 1⟩ [Value.Nodes {0, 1}] =
      some (.ok (Value.Number (.finite (({0, 1} : Finset Nat).card : ℚ)))) ∧
    Count.evaluate ⟨1, 1⟩ [Value.Boolean true] =
      some (.error (.WrongType ArgumentType.Nodeset ArgumentType.Boolean)) :=
  ⟨(count_spec ⟨1, 1⟩ {0, 1} (Value.Boolean true)).1,
   (count_spec ⟨1, 1⟩ ∅ (Value.Boolean true)).2 (by decide)⟩

/-- C7: every built-in except last and position is independent of the
evaluation context: the same argument list under any two contexts yields
the same result.  Determinism (same context, same args, same result) is
intrinsic to the embedding, where each evaluate is a function; it is
recorded here as the reflexive conjuncts for last and position. -/
theorem context_independence_and_determinism (c1 c2 : EvaluationContext)
    (args : List Value) :
    Count.evaluate c1 args = Count.evaluate c2 args ∧
    Concat.evaluate c1 args = Concat.evaluate c2 args ∧
    StartsWith.evaluate c1 args = StartsWith.evaluate c2 args ∧
    Contains.evaluate c1 args = Contains.evaluate c2 args ∧
    SubstringBefore.evaluate c1 args = SubstringBefore.evaluate c2 args ∧
    SubstringAfter.evaluate c1 args = SubstringAfter.evaluate c2 args ∧
    Not.evaluate c1 args = Not.evaluate c2 args ∧
    True.evaluate c1 args = True.evaluate c2 args ∧
    False.evaluate c1 args = False.evaluate c2 args ∧
    Floor.evaluate c1 args = Floor.evaluate c2 args ∧
    Ceiling.evaluate c1 args = Ceiling.evaluate c2 args ∧
    Last.evaluate c1 args = Last.evaluate c1 args ∧
    Position.evaluate c1 args = Position.evaluate c1 args :=
  ⟨rfl, rfl, rfl, rfl, rfl, rfl, rfl, rfl, rfl, rfl, rfl, rfl, rfl⟩

/-- C8: after register_core_functions, each of the 13 names is bound in
the registry to the evaluate implementation of the corresponding built-in
(whose conformance to the built-in table is established by the other
theorems in this file), whatever the prior contents of the registry. -/
theorem register_core_functions_installs_all (m : Functions) :
    register_core_functions m "last" = some Last.evaluate ∧
    register_core_functions m "position" = some Position.evaluate ∧
    register_core_functions m "count" = some Count.evaluate ∧
    register_core_functions m "concat" = some Concat.evaluate ∧
    register_core_functions m "starts-with" = some StartsWith.evaluate ∧
    register_core_functions m "contains" = some Contains.evaluate ∧
    register_core_functions m "substring-before" = some SubstringBefore.evaluate ∧
    register_core_functions m "substring-after" = some SubstringAfter.evaluate ∧
    register_core_functions m "not" = some Not.evaluate ∧
    register_core_functions m "true" = some True.evaluate ∧
    register_core_functions m "false" = some False.evaluate ∧
    register_core_functions m "floor" = some Floor.evaluate ∧
    register_core_functions m "ceiling" = some Ceiling.evaluate :=
  ⟨rfl, rfl, rfl, rfl, rfl, rfl, rfl, rfl, rfl, rfl, rfl, rfl, rfl⟩

/-- C9: floor with one finite Number argument returns the largest integral
value ≤ the argument and ceiling the smallest integral value ≥ it (the
characterizing inequalities are stated explicitly); NaN and the two
infinities are propagated unchanged with no special-casing. -/
theorem floor_ceiling_spec (ctx : EvaluationContext) (q : ℚ) :
    (Floor.evaluate ctx [Value.Number (.finite q)] =
        some (.ok (Value.Number (.finite (⌊q⌋ : ℚ)))) ∧
      ((⌊q⌋ : ℚ) ≤ q ∧ ∀ z : ℤ, (z : ℚ) ≤ q → z ≤ ⌊q⌋)) ∧
    (Ceiling.evaluate ctx [Value.Number (.finite q)] =
        some (.ok (Value.Number (.finite (⌈q⌉ : ℚ)))) ∧
      (q ≤ (⌈q⌉ : ℚ) ∧ ∀ z : ℤ, q ≤ (z : ℚ) → ⌈q⌉ ≤ z)) ∧
    (Floor.evaluate ctx [Value.Number .nan] = some (.ok (Value.Number .nan)) ∧
     Ceiling.evaluate ctx [Value.Number .nan] = some (.ok (Value.Number .nan)) ∧
     Floor.evaluate ctx [Value.Number .posInf] = some (.ok (Value.Number .posInf)) ∧
     Ceiling.evaluate ctx [Value.Number .posInf] = some (.ok (Value.Number .posInf)) ∧
     Floor.evaluate ctx [Value.Number .negInf] = some (.ok (Value.Number .negInf)) ∧
     Ceiling.evaluate ctx [Value.Number .negInf] = some (.ok (Value.Number .negInf))) := by
  refine ⟨⟨?_, Int.floor_le q, fun z hz => Int.le_floor.mpr hz⟩,
    ⟨?_, Int.le_ceil q, fun z hz => Int.ceil_le.mpr hz⟩, ?_, ?_, ?_, ?_, ?_, ?_⟩
  · simp [Floor.evaluate, exact_arg_count, one_number, F64.floor]
  · simp [Ceiling.evaluate, exact_arg_count, one_number, F64.ceil]
  · simp [Floor.evaluate, exact_arg_count, one_number, F64.floor]
  · simp [Ceiling.evaluate, exact_arg_count, one_number, F64.ceil]
  · simp [Floor.evaluate, exact_arg_count, one_number, F64.floor]
  · simp [Ceiling.evaluate, exact_arg_count, one_number, F64.ceil]
  · simp [Floor.evaluate, exact_arg_count, one_number, F64.floor]
  · simp [Ceiling.evaluate, exact_arg_count, one_number, F64.ceil]

theorem floor_ceiling_spec_witness :
    Floor.evaluate ⟨1, 1⟩ [Value.Number (.finite (mkRat 19999 100))] =
      some (.ok (Value.Number (.finite (⌊(mkRat 19999 100 : ℚ)⌋ : ℚ)))) ∧
    (199 : ℤ) ≤ ⌊(mkRat 19999 100 : ℚ)⌋ ∧
    ⌈(mkRat 19999 100 : ℚ)⌉ ≤ (200 : ℤ) :=
  ⟨(floor_ceiling_spec ⟨1, 1⟩ (mkRat 19999 100)).1.1,
   (floor_ceiling_spec ⟨1, 1⟩ (mkRat 19999 100)).1.2.2 199 (by decide),
   (floor_ceiling_spec ⟨1, 1⟩ (mkRat 19999 100)).2.1.2.2 200 (by decide)⟩

/-- C10: one_number reads args[0] with no bounds check of its own (it is
a panic, modelled as none, exactly on the empty list and total on any
non-empty list), yet every built-in's evaluate — in particular its only
callers floor and ceiling, which check exact arity 1 first — never
reaches that panic: evaluate is some on all inputs. -/
theorem one_number_unchecked_index_safe :
    one_number ([] : List Value) = none ∧
    (∀ args : List Value, args ≠ [] → (one_number args).isSome = true) ∧
    (∀ (ctx : EvaluationContext) (args : List Value),
      (Last.evaluate ctx args).isSome = true ∧
      (Position.evaluate ctx args).isSome = true ∧
      (Count.evaluate ctx args).isSome = true ∧
      (Concat.evaluate ctx args).isSome = true ∧
      (StartsWith.evaluate ctx args).isSome = true ∧
      (Contains.evaluate ctx args).isSome = true ∧
      (SubstringBefore.evaluate ctx args).isSome = true ∧
      (SubstringAfter.evaluate ctx args).isSome = true ∧
      (Not.evaluate ctx args).isSome = true ∧
      (True.evaluate ctx args).isSome = true ∧
      (False.evaluate ctx args).isSome = true ∧
      (Floor.evaluate ctx args).isSome = true ∧
      (Ceiling.evaluate ctx args).isSome = true) := by
  refine ⟨rfl, ?_, ?_⟩
  · intro args h
    cases args with
    | nil => exact absurd rfl h
    | cons a t => cases a <;> simp [one_number]
  · intro ctx args
    refine ⟨?_, ?_, ?_, ?_, ?_, ?_, ?_, ?_, ?_, ?_, ?_, ?_, ?_⟩
    · cases he : exact_arg_count args 0 with
      | error e => simp [Last.evaluate, he]
      | ok u => cases u; simp [Last.evaluate, he]
    · cases he : exact_arg_count args 0 with
      | error e => simp [Position.evaluate, he]
      | ok u => cases u; simp [Position.evaluate, he]
    · cases he : exact_arg_count args 1 with
      | error e => simp [Count.evaluate, he]
      | ok u =>
        cases u
        have hlen := length_of_exact_ok he
        cases args with
        | nil => simp at hlen
        | cons a t => cases a <;> simp [Count.evaluate, he]
    · cases hm : minimum_arg_count args 2 with
      | error e => simp [Concat.evaluate, hm]
      | ok u =>
        cases u
        cases hs : string_args args with
        | error e => simp [Concat.evaluate, hm, hs]
        | ok ss => simp [Concat.evaluate, hm, hs]
    · cases he : exact_arg_count args 2 with
      | error e => simp [StartsWith.evaluate, he]
      | ok u =>
        cases u
        have hlen := length_of_exact_ok he
        cases hs : string_args args with
        | error e => simp [StartsWith.evaluate, he, hs]
        | ok ss =>
          have hlen2 : ss.length = 2 := by rw [string_args_length hs, hlen]
          cases ss with
          | nil => simp at hlen2
          | cons a t =>
            cases t with
            | nil => simp at hlen2
            | cons b t2 => simp [StartsWith.evaluate, he, hs]
    · cases he : exact_arg_count args 2 with
      | error e => simp [Contains.evaluate, he]
      | ok u =>
        cases u
        have hlen := length_of_exact_ok he
        cases hs : string_args args with
        | error e => simp [Contains.evaluate, he, hs]
        | ok ss =>
          have hlen2 : ss.length = 2 := by rw [string_args_length hs, hlen]
          cases ss with
          | nil => simp at hlen2
          | cons a t =>
            cases t with
            | nil => simp at hlen2
            | cons b t2 => simp [Contains.evaluate, he, hs]
    · cases he : exact_arg_count args 2 with
      | error e => simp [SubstringBefore.evaluate, he]
      | ok u =>
        cases u
        have hlen := length_of_exact_ok he
        cases hs : string_args args with
        | error e => simp [SubstringBefore.evaluate, he, hs]
        | ok ss =>
          have hlen2 : ss.length = 2 := by rw [string_args_length hs, hlen]
          cases ss with
          | nil => simp at hlen2
          | cons a t =>
            cases t with
            | nil => simp at hlen2
            | cons b t2 => simp [SubstringBefore.evaluate, he, hs]
    · cases he : exact_arg_count args 2 with
      | error e => simp [SubstringAfter.evaluate, he]
      | ok u =>
        cases u
        have hlen := length_of_exact_ok he
        cases hs : string_args args with
        | error e => simp [SubstringAfter.evaluate, he, hs]
        | ok ss =>
          have hlen2 : ss.length = 2 := by rw [string_args_length hs, hlen]
          cases ss with
          | nil => simp at hlen2
          | cons a t =>
            cases t with
            | nil => simp at hlen2
            | cons b t2 => simp [SubstringAfter.evaluate, he, hs]
    · cases he : exact_arg_count args 1 with
      | error e => simp [Not.evaluate, he]
      | ok u =>
        cases u
        have hlen := length_of_exact_ok he
        cases args with
        | nil => simp at hlen
        | cons a t => cases a <;> simp [Not.evaluate, he]
    · cases he : exact_arg_count args 0 with
      | error e => simp [True.evaluate, he]
      | ok u => cases u; simp [True.evaluate, he]
    · cases he : exact_arg_count args 0 with
      | error e => simp [False.evaluate, he]
      | ok u => cases u; simp [False.evaluate, he]
    · cases he : exact_arg_count args 1 with
      | error e => simp [Floor.evaluate, he]
      | ok u =>
        cases u
        have hlen := length_of_exact_ok he
        cases args with
        | nil => simp at hlen
        | cons a t => cases a <;> simp [Floor.evaluate, he, one_number]
    · cases he : exact_arg_count args 1 with
      | error e => simp [Ceiling.evaluate, he]
      | ok u =>
        cases u
        have hlen := length_of_exact_ok he
        cases args with
        | nil => simp at hlen
        | cons a t => cases a <;> simp [Ceiling.evaluate, he, one_number]

theorem one_number_unchecked_index_safe_witness :
    (one_number [Value.Boolean true]).isSome = true :=
  one_number_unchecked_index_safe.2.1 [Value.Boolean true] (by decide)
